import Mathlib

set_option maxRecDepth 16384

/-!
Shallow embedding of the C-to-C++ translator in `src/c_cpp.py`
(class `CToCppTranslator`).

Modelling conventions:
* Python strings are modelled as `List Char` internally and `String`
  at the boundaries of each translated method.
* The Python `re` patterns of the source are implemented as explicit
  character scanners with the same greedy, left-to-right,
  non-overlapping semantics; every scanner is commented with the
  regex it embeds.  `\w`, `\s`, `isdigit` are modelled over ASCII,
  matching all inputs exercised in the theorems below.
* Python `set`s are modelled as lists deduplicated in first-occurrence
  order (set iteration order is unspecified in Python; all statements
  about set-driven output below are order-independent, and concrete
  evaluations fix the first-occurrence order).  Python `dict`s are
  modelled as association lists with insertion-order semantics, which
  is exact.
* Recursion over text is either structural or driven by a fuel
  argument instantiated with the length of the text, which is always
  sufficient because every step consumes at least one character.
-/

namespace CCpp

/-! ### Character classes and basic string helpers -/

/-- Python `\w` (ASCII): letters, digits, underscore. -/
def pyWordChar (c : Char) : Bool := c.isAlphanum || c = '_'

/-- Python `\s` (ASCII): space, tab, newline, carriage return, vertical tab, form feed. -/
def pySpaceChar (c : Char) : Bool :=
  c = ' ' || c = '\t' || c = '\n' || c = '\r' || c = '\x0b' || c = '\x0c'

/-- Abbreviation turning a string literal into its character list. -/
def cl (s : String) : List Char := s.data

/-- Does `hay` start with `needle`? (`str.startswith`). -/
def leadsWith : List Char → List Char → Bool
  | [], _ => true
  | _ :: _, [] => false
  | a :: as, b :: bs => a = b && leadsWith as bs

/-- Python `needle in hay` substring test. -/
def containsSub (needle : List Char) : List Char → Bool
  | [] => leadsWith needle []
  | c :: r => leadsWith needle (c :: r) || containsSub needle r

/-- Python `str.strip` (ASCII whitespace). -/
def pyStrip (s : List Char) : List Char :=
  ((s.dropWhile pySpaceChar).reverse.dropWhile pySpaceChar).reverse

/-- Python `str.split()` with no argument: split on whitespace runs, dropping empties.
Fuel-driven; fuel `s.length` always suffices. -/
def pySplitWsF : Nat → List Char → List (List Char)
  | 0, _ => []
  | _ + 1, [] => []
  | fuel + 1, s =>
    let s' := s.dropWhile pySpaceChar
    match s' with
    | [] => []
    | _ :: _ =>
      let w := s'.takeWhile (fun c => !pySpaceChar c)
      w :: pySplitWsF fuel (s'.dropWhile (fun c => !pySpaceChar c))

/-- Python `str.split()` with no argument. -/
def pySplitWs (s : List Char) : List (List Char) := pySplitWsF s.length s

/-- Python `str.split(sep)` for a one-character separator. -/
def pySplitOn (sep : Char) : List Char → List (List Char)
  | [] => [[]]
  | c :: r =>
    if c = sep then [] :: pySplitOn sep r
    else
      match pySplitOn sep r with
      | [] => [[c]]
      | p :: ps => (c :: p) :: ps

/-- Python `str.replace(old, new)`: replace every non-overlapping occurrence,
left to right.  Fuel-driven; `s.length` suffices for non-empty `old`
(the translator never calls `replace` with an empty pattern). -/
def replaceAllF : Nat → List Char → List Char → List Char → List Char
  | 0, s, _, _ => s
  | _ + 1, [], _, _ => []
  | fuel + 1, c :: r, old, new =>
    if old ≠ [] ∧ leadsWith old (c :: r) then
      new ++ replaceAllF fuel ((c :: r).drop old.length) old new
    else
      c :: replaceAllF fuel r old new

/-- Python `str.replace(old, new)`. -/
def replaceAll (s old new : List Char) : List Char := replaceAllF s.length s old new

/-- Remove every character equal to `c` (Python `str.replace(c, '')`). -/
def removeChar (c : Char) (s : List Char) : List Char := s.filter (fun x => x ≠ c)

/-- Deduplicate keeping the first occurrence of each element (model of the
order in which a Python set built by successive `add`s was populated). -/
def dedupFirstAux [DecidableEq α] (seen : List α) : List α → List α
  | [] => []
  | x :: xs => if x ∈ seen then dedupFirstAux seen xs else x :: dedupFirstAux (seen ++ [x]) xs

/-- Deduplicate keeping first occurrences. -/
def dedupFirst [DecidableEq α] (l : List α) : List α := dedupFirstAux [] l

/-- Add to a set modelled as a list (Python `set.add`). -/
def addUnique [DecidableEq α] (l : List α) (x : α) : List α :=
  if x ∈ l then l else l ++ [x]

/-! ### A tiny scanner type embedding the regex patterns of the source -/

/-- A scanner: consume a prefix of the input, returning a value and the rest. -/
def Scan (α : Type) : Type := List Char → Option (α × List Char)

instance : Monad Scan where
  pure a := fun s => some (a, s)
  bind m f := fun s =>
    match m s with
    | some (a, s') => f a s'
    | none => none

/-- Scanner alternative: try `p`, on failure try `q` (regex preference order). -/
def orElseS (p q : Scan α) : Scan α := fun s =>
  match p s with
  | some r => some r
  | none => q s

/-- Match a literal character sequence. -/
def lit (l : List Char) : Scan Unit := fun s =>
  if leadsWith l s then some ((), s.drop l.length) else none

/-- Match one character satisfying `p`. -/
def chIf (p : Char → Bool) : Scan Char := fun s =>
  match s with
  | [] => none
  | c :: r => if p c then some (c, r) else none

/-- Match a single given character. -/
def litc (c : Char) : Scan Unit := fun s =>
  match s with
  | [] => none
  | c' :: r => if c' = c then some ((), r) else none

/-- Greedy `X*` over a character class: maximal possibly-empty run. -/
def takeWhileS (p : Char → Bool) : Scan (List Char) := fun s =>
  some (s.takeWhile p, s.dropWhile p)

/-- Greedy `X+` over a character class: maximal non-empty run. -/
def takeWhile1S (p : Char → Bool) : Scan (List Char) := fun s =>
  let t := s.takeWhile p
  if t = [] then none else some (t, s.dropWhile p)

/-- Regex `\s*`. -/
def wsS : Scan Unit := do
  let _ ← takeWhileS pySpaceChar
  pure ()

/-- Regex `\s+`. -/
def ws1S : Scan Unit := do
  let _ ← takeWhile1S pySpaceChar
  pure ()

/-- Regex `(\w+)`. -/
def wordS : Scan (List Char) := takeWhile1S pyWordChar

/-- Run a scanner, also returning the exact text it consumed
(`match.group(0)` of the embedded regex). -/
def withText (m : Scan α) : Scan (List Char × α) := fun s =>
  match m s with
  | some (a, r) => some ((s.take (s.length - r.length), a), r)
  | none => none

/-- Model of `re.findall` / `re.finditer`: scan left to right, trying the
matcher at every position, emitting non-overlapping matches and continuing
after each match.  Fuel-driven; `s.length` suffices because every matcher
used below consumes at least one character. -/
def scanAllF (m : Scan α) : Nat → List Char → List α
  | 0, _ => []
  | _ + 1, [] => []
  | fuel + 1, c :: r =>
    match m (c :: r) with
    | some (a, rest) => a :: scanAllF m fuel rest
    | none => scanAllF m fuel r

/-- Model of `re.findall`. -/
def scanAll (m : Scan α) (s : List Char) : List α := scanAllF m s.length s

/-- Model of `re.search`: value of the first (leftmost) match, if any. -/
def searchF (m : Scan α) : Nat → List Char → Option α
  | 0, _ => none
  | _ + 1, [] => none
  | fuel + 1, c :: r =>
    match m (c :: r) with
    | some (a, _) => some a
    | none => searchF m fuel r

/-- Model of `re.search`. -/
def searchS (m : Scan α) (s : List Char) : Option α := searchF m s.length s

/-- Model of `re.search` returning the suffix of the input starting at the
match (used where the source needs the match *position*). -/
def searchSuffixF (m : Scan α) : Nat → List Char → Option (List Char)
  | 0, _ => none
  | _ + 1, [] => none
  | fuel + 1, c :: r =>
    match m (c :: r) with
    | some _ => some (c :: r)
    | none => searchSuffixF m fuel r

/-- Model of `re.search`, position variant. -/
def searchSuffix (m : Scan α) (s : List Char) : Option (List Char) := searchSuffixF m s.length s

/-- Model of `re.sub(pattern, repl, s)`: replace every non-overlapping match,
where the replacement may depend on the match's groups. -/
def subAllF (m : Scan α) (repl : α → List Char) : Nat → List Char → List Char
  | 0, s => s
  | _ + 1, [] => []
  | fuel + 1, c :: r =>
    match m (c :: r) with
    | some (a, rest) => repl a ++ subAllF m repl fuel rest
    | none => c :: subAllF m repl fuel r

/-- Model of `re.sub` (all occurrences). -/
def subAll (m : Scan α) (repl : α → List Char) (s : List Char) : List Char :=
  subAllF m repl s.length s

/-- Model of `re.sub(pattern, repl, s, count=1)`: replace the first match only. -/
def subFirstF (m : Scan α) (repl : α → List Char) : Nat → List Char → List Char
  | 0, s => s
  | _ + 1, [] => []
  | fuel + 1, c :: r =>
    match m (c :: r) with
    | some (a, rest) => repl a ++ rest
    | none => c :: subFirstF m repl fuel r

/-- Model of `re.sub` with `count=1`. -/
def subFirst (m : Scan α) (repl : α → List Char) (s : List Char) : List Char :=
  subFirstF m repl s.length s

/-! ### Concrete matchers for the regexes of `c_cpp.py` -/

/-- Regex `#include\s+<([^>]+)>` (line 114). -/
def matchIncludeDirective : Scan String := do
  lit (cl "#include")
  ws1S
  litc '<'
  let name ← takeWhile1S (fun c => c ≠ '>')
  litc '>'
  pure ⟨name⟩

/-- Regex `%\.[0-9]+[fg]` (line 118, the `needs_iomanip` probe). -/
def matchPrecisionSpec : Scan Unit := do
  litc '%'
  litc '.'
  let _ ← takeWhile1S Char.isDigit
  let _ ← chIf (fun c => c = 'f' || c = 'g')
  pure ()

/-- Regex `#define\s+(\w+)\s+(.+)` (line 123); `.` excludes `\n` only. -/
def matchDefineDirective : Scan (String × String) := do
  lit (cl "#define")
  ws1S
  let n ← wordS
  ws1S
  let v ← takeWhile1S (fun c => c ≠ '\n')
  pure (⟨n⟩, ⟨v⟩)

/-- Regex `int\s+main\s*\(` (line 83, the `main` counter). -/
def matchIntMainOpen : Scan Unit := do
  lit (cl "int")
  ws1S
  lit (cl "main")
  wsS
  litc '('

/-- Regex `int\s+main\s*\([^)]*\)` (line 486, the `main` signature). -/
def matchMainSignature : Scan Unit := do
  matchIntMainOpen
  let _ ← takeWhileS (fun c => c ≠ ')')
  litc ')'

/-- Regex `(\w+)\s+(\w+)\s*\(([^)]*)\)\s*{` — the common header part of the
function patterns (lines 88, 192, 284): return type, name, parameter text. -/
def matchFuncHeader : Scan (String × String × String) := do
  let r ← wordS
  ws1S
  let n ← wordS
  wsS
  litc '('
  let ps ← takeWhileS (fun c => c ≠ ')')
  litc ')'
  wsS
  litc '\x7b'
  pure (⟨r⟩, ⟨n⟩, ⟨ps⟩)

/-- Body part `[^{}]*(?:{[^{}]*}[^{}]*)*` followed by the closing `}` of the
function patterns (lines 192 and 284): text with at most one level of
nested braces.  Greedy and non-greedy variants of this sub-pattern accept
exactly the same text because an iteration starts with `{` while the close
is `}`.  Returns the body (closing brace consumed, not included).
Fails where the regex fails: on a second level of nesting. -/
def matchBody1F : Nat → List Char → Option (List Char × List Char)
  | 0, _ => none
  | fuel + 1, s =>
    let t := s.takeWhile (fun c => c ≠ '\x7b' && c ≠ '\x7d')
    match s.dropWhile (fun c => c ≠ '\x7b' && c ≠ '\x7d') with
    | '\x7d' :: rest => some (t, rest)
    | '\x7b' :: rest =>
      let t2 := rest.takeWhile (fun c => c ≠ '\x7b' && c ≠ '\x7d')
      match rest.dropWhile (fun c => c ≠ '\x7b' && c ≠ '\x7d') with
      | '\x7d' :: rest2 =>
        match matchBody1F fuel rest2 with
        | some (b, rr) => some (t ++ '\x7b' :: t2 ++ '\x7d' :: b, rr)
        | none => none
      | _ => none
    | _ => none

/-- One-level-nested body sub-pattern as a scanner. -/
def matchBody1 : Scan (List Char) := fun s => matchBody1F s.length s

/-- Regex `(\w+)\s+(\w+)\s*\(([^)]*)\)\s*{([^{}]*(?:{[^{}]*}[^{}]*)*?)}`
(line 284, `func_pattern`): header plus one-level body. -/
def matchFuncDef : Scan (String × String × String × String) := do
  let (r, n, ps) ← matchFuncHeader
  let b ← matchBody1
  pure (r, n, ps, ⟨b⟩)

/-- Regex `(\w+\s+\w+\s*\([^)]*\)\s*{[^{}]*(?:{[^{}]*}[^{}]*)*})` (line 192,
`function_blocks`): the whole matched text of a function definition. -/
def matchFuncBlock : Scan (List Char) := do
  let (t, _) ← withText matchFuncDef
  pure t

/-- Regex `(const\s+)?(\w+)\s+(\w+)\s*=\s*[^;]+;` (line 198), `const` branch:
the first group captures `const` plus the whitespace it matched. -/
def matchVarDeclConst : Scan (String × String × String) := do
  lit (cl "const")
  let w ← takeWhile1S pySpaceChar
  let t ← wordS
  ws1S
  let n ← wordS
  wsS
  litc '='
  wsS
  let _ ← takeWhile1S (fun c => c ≠ ';')
  litc ';'
  pure (⟨cl "const" ++ w⟩, ⟨t⟩, ⟨n⟩)

/-- Regex `(const\s+)?(\w+)\s+(\w+)\s*=\s*[^;]+;` (line 198), branch without
`const`: the first group is the empty string, as `re.findall` reports it. -/
def matchVarDeclPlain : Scan (String × String × String) := do
  let t ← wordS
  ws1S
  let n ← wordS
  wsS
  litc '='
  wsS
  let _ ← takeWhile1S (fun c => c ≠ ';')
  litc ';'
  pure ("", ⟨t⟩, ⟨n⟩)

/-- Regex `(const\s+)?(\w+)\s+(\w+)\s*=\s*[^;]+;` (line 198): the optional
group is greedy, so the `const` branch is preferred. -/
def matchVarDecl : Scan (String × String × String) :=
  orElseS matchVarDeclConst matchVarDeclPlain

/-- Regex `struct\s+(\w+)\s*{([^}]*)}` (line 213). -/
def matchStructDef : Scan (String × String) := do
  lit (cl "struct")
  ws1S
  let n ← wordS
  wsS
  litc '\x7b'
  let b ← takeWhileS (fun c => c ≠ '\x7d')
  litc '\x7d'
  pure (⟨n⟩, ⟨b⟩)

/-- A function associated to a struct (groups of the regex at line 222). -/
structure MethodDef where
  return_type : String
  name : String
  param_name : String
  other_params : String
  body : String
deriving DecidableEq, Repr

/-- Regex `(\w+)\s+(\w+)\s*\(\s*struct\s+NAME\s*\*\s*(\w+)([^)]*)\)\s*{([^}]*)}`
(line 222) with the struct name interpolated. -/
def matchStructFunc (sname : String) : Scan MethodDef := do
  let r ← wordS
  ws1S
  let n ← wordS
  wsS
  litc '('
  wsS
  lit (cl "struct")
  ws1S
  lit (cl sname)
  wsS
  litc '*'
  wsS
  let p ← wordS
  let ops ← takeWhileS (fun c => c ≠ ')')
  litc ')'
  wsS
  litc '\x7b'
  let b ← takeWhileS (fun c => c ≠ '\x7d')
  litc '\x7d'
  pure ⟨⟨r⟩, ⟨n⟩, ⟨p⟩, ⟨ops⟩, ⟨b⟩⟩

/-- Regex `(\w+)\s*=\s*\((\w+)\s*\*\)\s*malloc\(sizeof\((\w+)\)\s*\*\s*(\w+)\);`
(line 331, array `malloc`): groups (var, cast type, allocated type, size). -/
def matchMallocArray : Scan (String × String × String × String) := do
  let v ← wordS
  wsS
  litc '='
  wsS
  litc '('
  let t ← wordS
  wsS
  litc '*'
  litc ')'
  wsS
  lit (cl "malloc(sizeof(")
  let a ← wordS
  litc ')'
  wsS
  litc '*'
  wsS
  let sz ← wordS
  litc ')'
  litc ';'
  pure (⟨v⟩, ⟨t⟩, ⟨a⟩, ⟨sz⟩)

/-- Regex `(\w+)\s*=\s*\((\w+)\s*\*\)\s*malloc\(sizeof\((\w+)\)\);`
(line 338, scalar `malloc`): groups (var, cast type, allocated type). -/
def matchMallocSingle : Scan (String × String × String) := do
  let v ← wordS
  wsS
  litc '='
  wsS
  litc '('
  let t ← wordS
  wsS
  litc '*'
  litc ')'
  wsS
  lit (cl "malloc(sizeof(")
  let a ← wordS
  lit (cl "));")
  pure (⟨v⟩, ⟨t⟩, ⟨a⟩)

/-- Format-string content `[^"\\]*(?:\\.[^"\\]*)*` of the printf pattern
(line 353): plain characters interleaved with backslash escapes, where the
escaped character may not be a newline (regex `.`).  Fuel-driven. -/
def matchFmtContentF : Nat → List Char → Option (List Char × List Char)
  | 0, _ => none
  | fuel + 1, s =>
    let t := s.takeWhile (fun c => c ≠ '"' && c ≠ '\\')
    match s.dropWhile (fun c => c ≠ '"' && c ≠ '\\') with
    | '\\' :: e :: rest =>
      if e = '\n' then none
      else
        match matchFmtContentF fuel rest with
        | some (b, rr) => some (t ++ '\\' :: e :: b, rr)
        | none => none
    | rest => some (t, rest)

/-- Format-string content scanner (closing quote not consumed). -/
def matchFmtContent : Scan (List Char) := fun s => matchFmtContentF s.length s

/-- Argument part `(?:\s*,\s*([^;]*))?\);` of the printf pattern (line 353),
branch with arguments.  The greedy `[^;]*` followed by `\)` can only succeed
when the maximal run of non-semicolon characters ends in `)`; the group then
captures that run without its final `)`. -/
def matchPrintfArgs : Scan (Option String) := do
  wsS
  litc ','
  wsS
  let raw ← takeWhileS (fun c => c ≠ ';')
  match raw.getLast? with
  | some ')' => do
    litc ';'
    pure (some ⟨raw.dropLast⟩)
  | _ => fun _ => none

/-- Regex `printf\("([^"\\]*(?:\\.[^"\\]*)*)"(?:\s*,\s*([^;]*))?\);`
(line 353): returns (whole matched text, format string, optional argument
text).  The optional argument group is tried first (greedy `?`). -/
def matchPrintfCall : Scan (List Char × String × Option String) := do
  let (t, r) ← withText (do
    lit (cl "printf(\"")
    let f ← matchFmtContent
    litc '"'
    let args ← orElseS matchPrintfArgs (do lit (cl ");"); pure none)
    pure (⟨f⟩, args))
  pure (t, r)

/-- Regex `scanf\("([^"]+)",\s*([^)]+)\);` (line 407): groups
(format string, argument text).  As with printf, `[^)]+` followed by `\);`
succeeds exactly on the maximal run of non-`)` characters followed by `);`. -/
def matchScanfCall : Scan (String × String) := do
  lit (cl "scanf(\"")
  let f ← takeWhile1S (fun c => c ≠ '"')
  lit (cl "\",")
  wsS
  let args ← takeWhile1S (fun c => c ≠ ')')
  lit (cl ");")
  pure (⟨f⟩, ⟨args⟩)

/-- Regex `void\s+swap\s*\(\s*(\w+)\s*\*\s*a\s*,\s*(\w+)\s*\*\s*b\s*\)`
(line 437): the literal parameter names `a` and `b` are part of the pattern. -/
def matchSwapSignature : Scan (String × String) := do
  lit (cl "void")
  ws1S
  lit (cl "swap")
  wsS
  litc '('
  wsS
  let t1 ← wordS
  wsS
  litc '*'
  wsS
  litc 'a'
  wsS
  litc ','
  wsS
  let t2 ← wordS
  wsS
  litc '*'
  wsS
  litc 'b'
  wsS
  litc ')'
  pure (⟨t1⟩, ⟨t2⟩)

/-- Regex `void\s+swap\s*\(\s*(\w+)\s*\*\s*a\s*,\s*(\w+)\s*\*\s*b\s*\)\s*{([^}]*)}`
(line 443): swap signature plus single-level body. -/
def matchSwapImpl : Scan (String × String × String) := do
  let (t1, t2) ← matchSwapSignature
  wsS
  litc '\x7b'
  let b ← takeWhileS (fun c => c ≠ '\x7d')
  litc '\x7d'
  pure (t1, t2, ⟨b⟩)

/-- Trailer `=\s*(.+);` of the function-pointer pattern (line 457): the
greedy `.+` (no newlines) followed by `;` captures the current line up to
its last semicolon, which must leave at least one character. -/
def matchFuncPtrInit : Scan String := fun s =>
  let line := s.takeWhile (fun c => c ≠ '\n')
  let beforeSemi := (line.reverse.dropWhile (fun c => c ≠ ';'))
  match beforeSemi with
  | ';' :: revRef =>
    if revRef = [] then none
    else some (⟨revRef.reverse⟩, s.drop (revRef.length + 1))
  | _ => none

/-- Regex `(\w+)\s+\(\*(\w+)\)\(([^)]*)\)\s*=\s*(.+);` (line 457): groups
(return type, pointer name, parameter text, initializer). -/
def matchFuncPtrDecl : Scan (String × String × String × String) := do
  let r ← wordS
  ws1S
  lit (cl "(*")
  let n ← wordS
  lit (cl ")(")
  let ps ← takeWhileS (fun c => c ≠ ')')
  litc ')'
  wsS
  litc '='
  wsS
  let init ← matchFuncPtrInit
  pure (⟨r⟩, ⟨n⟩, ⟨ps⟩, init)

/-- Separator regex `(%[diouxXfFeEgGaAcspn]|%\.\d+[fg])` of the
`re.split` at line 366; alternatives tried left to right. -/
def matchFmtSpecifier : Scan (List Char) :=
  orElseS
    (do
      litc '%'
      let c ← chIf (fun c => (cl "diouxXfFeEgGaAcspn").contains c)
      pure ['%', c])
    (do
      litc '%'
      litc '.'
      let d ← takeWhile1S Char.isDigit
      let c ← chIf (fun c => c = 'f' || c = 'g')
      pure ('%' :: '.' :: d ++ [c]))

/-- Model of `re.split(r'(%[diouxXfFeEgGaAcspn]|%\.\d+[fg])', fmt)` with the
captured separators kept, followed by dropping empty pieces (lines 366-367).
The loop at line 373 then re-examines every piece with prefix tests, so the
pieces are kept as plain strings exactly as in the source. -/
def splitFmtF : Nat → List Char → List Char → List (List Char)
  | 0, acc, _ => if acc = [] then [] else [acc.reverse]
  | _ + 1, acc, [] => if acc = [] then [] else [acc.reverse]
  | fuel + 1, acc, c :: r =>
    match matchFmtSpecifier (c :: r) with
    | some (sp, rest) =>
      (if acc = [] then [] else [acc.reverse]) ++ sp :: splitFmtF fuel [] rest
    | none => splitFmtF fuel (c :: acc) r

/-- Split a format string into pieces (text and specifiers), empties dropped. -/
def splitFmt (s : List Char) : List (List Char) := splitFmtF s.length [] s

/-- Prefix test `re.match(r'%\.(\d+)([fg])', part)` (line 375): returns the
captured precision digits. -/
def fpPrecisionOf (part : List Char) : Option String :=
  match part with
  | '%' :: '.' :: rest =>
    let ds := rest.takeWhile Char.isDigit
    if ds = [] then none
    else
      match rest.dropWhile Char.isDigit with
      | c :: _ => if c = 'f' || c = 'g' then some ⟨ds⟩ else none
      | [] => none
  | _ => none

/-- Prefix test `re.match(r'%[diouxXfFeEgGaAcspn]', part)` (line 382). -/
def isPlainSpecifier (part : List Char) : Bool :=
  match part with
  | '%' :: c :: _ => (cl "diouxXfFeEgGaAcspn").contains c
  | _ => false

/-! ### Catalog builders (`identify_*`, lines 112-230) -/

/-- The `includes` field: `set(re.findall(include_pattern, c_code))` (line 115).
The set is modelled as the match list deduplicated in first-occurrence order. -/
def identify_includes (c : String) : List String :=
  dedupFirst (scanAll matchIncludeDirective c.data)

/-- The `needs_iomanip` flag: `re.search(r'%\.[0-9]+[fg]', c_code)` (line 118). -/
def needs_iomanip (c : String) : Bool :=
  (searchS matchPrecisionSpec c.data).isSome

/-- Python dict assignment `d[k] = v`: updates the value in place if the key
exists (keeping its position), otherwise appends the pair. -/
def dictUpd [DecidableEq κ] (d : List (κ × ν)) (k : κ) (v : ν) : List (κ × ν) :=
  if k ∈ d.map Prod.fst then d.map (fun p => if p.1 = k then (k, v) else p)
  else d ++ [(k, v)]

/-- Build a Python dict (insertion-ordered association list) from a
sequence of assignments. -/
def dictOfList [DecidableEq κ] (ms : List (κ × ν)) : List (κ × ν) :=
  ms.foldl (fun d p => dictUpd d p.1 p.2) []

/-- The `defines` dict: `self.defines[name] = value.strip()` over
`re.findall(define_pattern, c_code)` (lines 123-125). -/
def identify_defines (c : String) : List (String × String) :=
  dictOfList ((scanAll matchDefineDirective c.data).map
    (fun p => (p.1, (⟨pyStrip p.2.data⟩ : String))))

/-- The `structs` dict: `self.structs[name] = body.strip()` (lines 213-215). -/
def identify_structs (c : String) : List (String × String) :=
  dictOfList ((scanAll matchStructDef c.data).map
    (fun p => (p.1, (⟨pyStrip p.2.data⟩ : String))))

/-- The `struct_to_functions` dict (lines 218-230): for each cataloged struct,
all functions whose first parameter is a pointer to it. -/
def identify_struct_functions (c : String) (structs : List (String × String)) :
    List (String × List MethodDef) :=
  structs.map (fun p => (p.1, scanAll (matchStructFunc p.1) c.data))

/-- Case-insensitive search for a literal word (`re.search(w, c, re.IGNORECASE)`
for a pattern without metacharacters); `lc` is the already-lowercased text. -/
def ciHas (needle : String) (lc : List Char) : Bool := containsSub (cl needle) lc

/-- Case-insensitive search for `printf.*scanf` (line 97): `printf` followed by
`scanf` later on the same line (`.` does not match newlines). -/
def hasPrintfThenScanf : List Char → Bool
  | [] => false
  | c :: r =>
    (leadsWith (cl "printf") (c :: r) &&
      containsSub (cl "scanf") (((c :: r).drop 6).takeWhile (fun x => x ≠ '\n')))
    || hasPrintfThenScanf r

/-- `_is_simple_program` (lines 80-110): exactly one `main`, no other function
definitions, and one of the keyword patterns present (case-insensitively). -/
def is_simple_program (c : String) : Bool :=
  let cc := c.data
  if (scanAll matchIntMainOpen cc).length ≠ 1 then false
  else if ((scanAll matchFuncHeader cc).filter (fun g => g.2.1 ≠ "main")).length > 0 then false
  else
    let lc := cc.map Char.toLower
    ciHas "isprime" lc || hasPrintfThenScanf lc ||
    ciHas "compoundinterest" lc || ciHas "fibonacci" lc || ciHas "factorial" lc ||
    ciHas "triangle" lc || ciHas "square" lc || ciHas "circle" lc ||
    ciHas "celsius" lc || ciHas "fahrenheit" lc || ciHas "ascii" lc

/-- `identify_global_variables` (lines 189-199): remove every matched function
block from the text, then collect variable declarations as a set of
(const prefix, type, name) triples. -/
def identify_global_variables (c : String) : List (String × String × String) :=
  let blocks := scanAll matchFuncBlock c.data
  let remaining := blocks.foldl (fun acc b => replaceAll acc b []) c.data
  dedupFirst (scanAll matchVarDecl remaining)

/-! ### Emitters for includes, defines, globals, classes -/

/-- The fixed header table `c_to_cpp_headers` (lines 149-165). -/
def c_to_cpp_headers : List (String × String) :=
  [("stdio.h", "iostream"), ("stdlib.h", "cstdlib"), ("string.h", "string"),
   ("math.h", "cmath"), ("time.h", "ctime"), ("assert.h", "cassert"),
   ("ctype.h", "cctype"), ("float.h", "cfloat"), ("limits.h", "climits"),
   ("locale.h", "clocale"), ("signal.h", "csignal"), ("stdarg.h", "cstdarg"),
   ("stdbool.h", "cstdbool"), ("stddef.h", "cstddef"), ("stdint.h", "cstdint")]

/-- Table lookup. -/
def headerMap (h : String) : Option String := c_to_cpp_headers.lookup h

/-- An emitted include line. -/
def includeLine (h : String) : String := "#include <" ++ h ++ ">"

/-- `_translate_includes` (lines 144-187); `includes` models `self.includes`. -/
def translate_includes (includes : List String) (iomanip : Bool) : List String :=
  ["// C++ style includes"]
  ++ (if iomanip then [includeLine "iomanip"] else [])
  ++ (if includes.contains "functional" then [includeLine "functional"] else [])
  ++ [includeLine "algorithm"]
  ++ includes.filterMap (fun i =>
      if i = "functional" then none
      else
        match headerMap i with
        | some m => some (includeLine m)
        | none => some (includeLine i))

/-- Python `value.startswith('"') and value.endswith('"')` (line 134). -/
def pyQuoted (v : List Char) : Bool :=
  leadsWith ['"'] v && leadsWith ['"'] v.reverse

/-- Python `str.isdigit` (ASCII digits; false on the empty string). -/
def pyIsDigit (v : List Char) : Bool := v ≠ [] && v.all Char.isDigit

/-- The constant declaration emitted for one `#define` (lines 133-141). -/
def defLine (nv : String × String) : String :=
  if pyQuoted nv.2.data then "const string " ++ nv.1 ++ " = " ++ nv.2 ++ ";"
  else if nv.2.data.contains '.' then "const double " ++ nv.1 ++ " = " ++ nv.2 ++ ";"
  else if pyIsDigit nv.2.data then "const int " ++ nv.1 ++ " = " ++ nv.2 ++ ";"
  else "const auto " ++ nv.1 ++ " = " ++ nv.2 ++ ";"

/-- `_translate_defines` (lines 127-142): header comment then one constant
per dict entry, in dict order. -/
def translate_defines (defines : List (String × String)) : List String :=
  if defines = [] then []
  else defines.foldl (fun acc nv => acc ++ [defLine nv]) ["// Constants (converted from #define)"]

/-- `_translate_global_variables` (lines 201-209). -/
def translate_global_variables (gv : List (String × String × String)) : List String :=
  if gv = [] then []
  else "// Global variables" :: gv.map (fun g => g.1 ++ g.2.1 ++ " " ++ g.2.2 ++ ";")

/-- Join with a separator (Python `sep.join`). -/
def joinSep (sep : List Char) : List (List Char) → List Char
  | [] => []
  | [x] => x
  | x :: xs => x ++ sep ++ joinSep sep xs

/-- `_translate_structs_to_classes` (lines 232-277): per struct, a class with
the original fields, a default constructor and the method declarations
(self parameter dropped, remaining parameter text kept verbatim), then the
out-of-line method bodies with the textual `param>`/`param.` replacements of
lines 270-271. -/
def translate_structs_to_classes (structs : List (String × String))
    (sfuncs : List (String × List MethodDef)) : List String :=
  structs.foldl (fun acc p =>
    let sname := p.1
    let funcs := (sfuncs.lookup sname).getD []
    acc
    ++ ["// Class converted from struct " ++ sname, "class " ++ sname ++ " \x7b", "public:"]
    ++ (pySplitOn ';' p.2.data).filterMap (fun l =>
        let t := pyStrip l
        if t = [] then none else some ("    " ++ (⟨t⟩ : String) ++ ";"))
    ++ ["\n    // Constructor", "    " ++ sname ++ "() \x7b\x7d"]
    ++ (if funcs ≠ [] then
          "\n    // Methods" :: funcs.map (fun f =>
            "    " ++ f.return_type ++ " " ++ f.name ++ "("
              ++ (⟨pyStrip f.other_params.data⟩ : String) ++ ");")
        else [])
    ++ ["\x7d;"]
    ++ (if funcs ≠ [] then
          ("\n// Method implementations for class " ++ sname) ::
          funcs.foldl (fun acc2 f =>
            let b1 := replaceAll f.body.data (cl (f.param_name ++ ">")) (cl "this->")
            let b2 := replaceAll b1 (cl (f.param_name ++ ".")) (cl "this.")
            acc2 ++ [f.return_type ++ " " ++ sname ++ "::" ++ f.name ++ "("
                       ++ (⟨pyStrip f.other_params.data⟩ : String) ++ ") \x7b",
                     (⟨b2⟩ : String), "\x7d"]) []
        else [])) []

/-! ### The function-body rewrite pipeline (`_process_function_body`, lines 326-481) -/

/-- Mutable translator state threaded through body processing:
`self.malloc_variables` and `self.includes` (both Python sets, modelled as
first-occurrence-ordered lists). -/
structure PState where
  malloc_variables : List String
  includes : List String
deriving DecidableEq, Repr

/-- The text rebuilt by the f-string at line 335 and passed to `replace`
as the pattern to substitute (note its fixed spelling `(T *)malloc(...)`). -/
def canonMallocArray (g : String × String × String × String) : List Char :=
  cl (g.1 ++ " = (" ++ g.2.1 ++ " *)malloc(sizeof(" ++ g.2.2.1 ++ ") * " ++ g.2.2.2 ++ ");")

/-- The replacement `var = new T[n];` (line 334). -/
def newArrayRepl (g : String × String × String × String) : List Char :=
  cl (g.1 ++ " = new " ++ g.2.2.1 ++ "[" ++ g.2.2.2 ++ "];")

/-- The text rebuilt by the f-string at line 342. -/
def canonMallocSingle (g : String × String × String) : List Char :=
  cl (g.1 ++ " = (" ++ g.2.1 ++ " *)malloc(sizeof(" ++ g.2.2 ++ "));")

/-- The replacement `var = new T;` (line 341). -/
def newSingleRepl (g : String × String × String) : List Char :=
  cl (g.1 ++ " = new " ++ g.2.2 ++ ";")

/-- The cout chain built from the split format pieces (lines 370-389):
walk the pieces, translating precision specifiers, plain specifiers and
literal text, consuming one argument per specifier and stopping silently
when arguments run out. -/
def coutPartsF (args : List String) : List (List Char) → Nat → List Char
  | [], _ => []
  | part :: rest, idx =>
    match fpPrecisionOf part with
    | some prec =>
      if idx < args.length then
        cl "fixed << setprecision(" ++ prec.data ++ cl ") << "
          ++ (args.getD idx "").data ++ cl " << " ++ coutPartsF args rest (idx + 1)
      else coutPartsF args rest idx
    | none =>
      if isPlainSpecifier part then
        if idx < args.length then
          (args.getD idx "").data ++ cl " << " ++ coutPartsF args rest (idx + 1)
        else coutPartsF args rest idx
      else cl "\"" ++ part ++ cl "\" << " ++ coutPartsF args rest idx

/-- Python `fmt.endswith("\n")` where the format text holds a two-character
backslash-n escape (lines 392 and 401). -/
def endsWithNewlineEscape (fmt : List Char) : Bool :=
  leadsWith ['n', '\\'] fmt.reverse

/-- The replacement for a printf call without (effective) arguments
(lines 400-404). -/
def printfNoArgsRepl (fmt : String) : List Char :=
  if endsWithNewlineEscape fmt.data then
    cl "cout << \"" ++ fmt.data.take (fmt.data.length - 2) ++ cl "\" << endl;"
  else cl "cout << \"" ++ fmt.data ++ cl "\";"

/-- The replacement for one printf call (lines 358-404): a `cout` chain when
the argument text is present and non-empty (Python truthiness of the group),
the plain-literal form otherwise. -/
def printfRepl (fmt : String) (argsOpt : Option String) : List Char :=
  match argsOpt with
  | some args =>
    if args ≠ "" then
      let argList := (pySplitOn ',' args.data).map (fun a => (⟨pyStrip a⟩ : String))
      let core := cl "cout << " ++ coutPartsF argList (splitFmt fmt.data) 0
      if endsWithNewlineEscape fmt.data then core ++ cl "endl;"
      else core.take (core.length - 4) ++ cl ";"
    else printfNoArgsRepl fmt
  | none => printfNoArgsRepl fmt

/-- The replacement for one scanf call (lines 410-415): one `cin >>`
statement per argument, leading `&` stripped, trailing space kept. -/
def cinRepl (args : String) : List Char :=
  ((pySplitOn ',' args.data).map pyStrip).foldl (fun acc arg =>
    let arg' := match arg with
      | '&' :: t => t
      | _ => arg
    acc ++ cl "cin >> " ++ arg' ++ cl "; ") []

/-- The fixed list of recognized math functions (lines 422-426). -/
def math_functions : List String :=
  ["sin", "cos", "tan", "asin", "acos", "atan", "atan2",
   "sinh", "cosh", "tanh", "exp", "log", "log10", "pow",
   "sqrt", "ceil", "floor", "fabs", "fmod"]

/-- Model of `re.sub(r'\b' + f + r'\(', 'std::' + f + '(', body)` (line 434):
replace every occurrence of `f(` not preceded by a word character. -/
def mathSubF (name : List Char) : Nat → Bool → List Char → List Char
  | 0, _, s => s
  | _ + 1, _, [] => []
  | fuel + 1, prevWord, c :: r =>
    if !prevWord && leadsWith (name ++ ['(']) (c :: r) then
      cl "std::" ++ name ++ '(' :: mathSubF name fuel false ((c :: r).drop (name.length + 1))
    else c :: mathSubF name fuel (pyWordChar c) r

/-- Namespace one math function in a body. -/
def mathSub (name : String) (s : List Char) : List Char :=
  mathSubF name.data s.length false s

/-- The replacement template for a recognized swap function (line 452). -/
def swapRepl : List Char :=
  cl "// Use C++ std::swap instead of custom implementation\ntemplate<typename T>\nvoid swap(T* a, T* b) \x7b\n    std::swap(*a, *b);\n\x7d"

/-- The replacement for a function-pointer declaration (lines 459-468). -/
def funcPtrRepl (g : String × String × String × String) : List Char :=
  let cpp := ((pySplitOn ',' g.2.2.1.data).map pyStrip).filter (fun p => p ≠ [])
  cl "function<" ++ g.1.data ++ cl "(" ++ joinSep (cl ", ") cpp ++ cl ")> "
    ++ g.2.1.data ++ cl " = " ++ g.2.2.2.data ++ cl ";"

/-- `_process_function_body` (lines 326-481): the fixed-order rewrite
pipeline over one body, threading the malloc-variable and include sets.
Stage order as in the source: array malloc, scalar malloc, free,
printf, scanf, math namespacing, swap idiom, function pointers. -/
def process_function_body (st : PState) (body : List Char) : List Char × PState :=
  -- stage a1: array malloc (lines 331-335); matches found on the incoming
  -- text, variable recorded, then replace of the canonically respelled text
  let ms1 := scanAll matchMallocArray body
  let r1 := ms1.foldl (fun (p : List Char × List String) g =>
      (replaceAll p.1 (canonMallocArray g) (newArrayRepl g), addUnique p.2 g.1))
    (body, st.malloc_variables)
  -- stage a2: scalar malloc (lines 338-342)
  let ms2 := scanAll matchMallocSingle r1.1
  let r2 := ms2.foldl (fun (p : List Char × List String) g =>
      (replaceAll p.1 (canonMallocSingle g) (newSingleRepl g), addUnique p.2 g.1)) r1
  -- stage a3: free → delete (lines 345-350), shape decided per variable by
  -- the `var = new ` and `var[` substring probes on the current body
  let b3 := r2.2.foldl (fun b v =>
      if containsSub (cl (v ++ " = new ")) b && containsSub (cl (v ++ "[")) b then
        replaceAll b (cl ("free(" ++ v ++ ");")) (cl ("delete[] " ++ v ++ ";"))
      else
        replaceAll b (cl ("free(" ++ v ++ ");")) (cl ("delete " ++ v ++ ";"))) r2.1
  -- stage b: printf → cout (lines 353-404); `re.finditer` walks the text as
  -- it entered the stage while the body is rebound by each replace
  let ms4 := scanAll matchPrintfCall b3
  let b4 := ms4.foldl (fun b m => replaceAll b m.1 (printfRepl m.2.1 m.2.2)) b3
  -- stage c: scanf → cin (lines 407-417); the replaced text is rebuilt by an
  -- f-string with exactly one space after the comma
  let ms5 := scanAll matchScanfCall b4
  let b5 := ms5.foldl (fun b m =>
      replaceAll b (cl ("scanf(\"" ++ m.1 ++ "\", " ++ m.2 ++ ");")) (cinRepl m.2)) b4
  -- stage d: math namespacing (lines 420-434); the `re.search` guard before
  -- each `re.sub` is redundant and folded into the substitution
  let b6 := if st.includes.contains "math.h" then
      math_functions.foldl (fun b f => mathSub f b) b5
    else b5
  -- stage e: swap idiom (lines 437-453); fires only when the *body text*
  -- contains a swap definition, gated by the temp/*a/*b probes on the first
  -- implementation match
  let b7 := match searchS matchSwapSignature b6 with
    | none => b6
    | some _ =>
      match searchS matchSwapImpl b6 with
      | none => b6
      | some impl =>
        if containsSub (cl "temp") impl.2.2.data && containsSub (cl "*a") impl.2.2.data
            && containsSub (cl "*b") impl.2.2.data then
          subAll matchSwapImpl (fun _ => swapRepl) b6
        else b6
  -- stage f: function pointers (lines 457-473); `re.sub(..., count=1)` per
  -- match, and the `functional` include recorded on the include set
  let ms8 := scanAll matchFuncPtrDecl b7
  let r8 := ms8.foldl (fun (p : List Char × List String) g =>
      (subFirst matchFuncPtrDecl (fun _ => funcPtrRepl g) p.1,
       if p.2.any (fun i => containsSub (cl "functional") i.data) then p.2
       else p.2 ++ ["functional"]))
    (b7, st.includes)
  (r8.1, ⟨r2.2, r8.2⟩)

/-! ### Free functions, `main`, and assembly (`translate`, lines 17-78) -/

/-- Parameter conversion of lines 306-314: `char*` parameters become
`const string&`, everything else is kept verbatim. -/
def cppParamOf (param : List Char) : List Char :=
  if containsSub (cl "char *") param || containsSub (cl "char*") param then
    cl "const string& " ++ removeChar '*' ((pySplitWs param).getLastD [])
  else param

/-- `_translate_functions` (lines 279-324): every `func_pattern` match except
`main` and struct-associated functions, parameters converted, body run
through the pipeline, state threaded left to right. -/
def translate_functions (structs : List (String × String)) (st : PState) (c : String) :
    List String × PState :=
  (scanAll matchFuncDef c.data).foldl (fun (acc : List String × PState) g =>
    if g.2.1 = "main" then acc
    else if structs.any (fun sp => containsSub (cl ("struct " ++ sp.1 ++ " *")) g.2.2.1.data) then
      acc
    else
      let cppParams := ((pySplitOn ',' g.2.2.1.data).map pyStrip).filterMap
        (fun p => if p = [] then none else some (cppParamOf p))
      let pr := process_function_body acc.2 g.2.2.2.data
      (acc.1 ++ ["// C++ style function",
                 g.1 ++ " " ++ g.2.1 ++ "(" ++ (⟨joinSep (cl ", ") cppParams⟩ : String) ++ ") \x7b",
                 (⟨pr.1⟩ : String), "\x7d", ""],
       pr.2))
    ([], st)

/-- Brace matching of lines 501-511: characters up to the brace matching an
already-open one (`d` is the number of additionally open braces), `none` when
the text ends first. -/
def takeBalanced (d : Nat) : List Char → Option (List Char)
  | [] => none
  | c :: r =>
    if c = '\x7d' then
      if d = 0 then some [] else (takeBalanced (d - 1) r).map (fun b => c :: b)
    else if c = '\x7b' then (takeBalanced (d + 1) r).map (fun b => c :: b)
    else (takeBalanced d r).map (fun b => c :: b)

/-- The extraction part of `_translate_main_function` (lines 485-517): locate
the `main` signature, the first `{` from the signature position on, and the
matching `}`; `none` on any failure. -/
def extract_main_body (c : String) : Option String :=
  match searchSuffix matchMainSignature c.data with
  | none => none
  | some suffix =>
    match suffix.dropWhile (fun ch => ch ≠ '\x7b') with
    | [] => none
    | _ :: afterBrace => (takeBalanced 0 afterBrace).map (fun b => (⟨b⟩ : String))

/-- `_translate_main_function` (lines 483-529): on successful extraction, the
fixed modern signature around the pipeline-processed body; otherwise the
empty list, leaving the state untouched. -/
def translate_main_function (st : PState) (c : String) : List String × PState :=
  match extract_main_body c with
  | none => ([], st)
  | some b =>
    let pr := process_function_body st b.data
    (["// Main function", "int main(int argc, char* argv[]) \x7b", (⟨pr.1⟩ : String), "\x7d"],
     pr.2)

/-- The state entering body processing: no malloc variables yet, includes as
identified (lines 5-15 and 19). -/
def initState (c : String) : PState := ⟨[], identify_includes c⟩

/-- The free-function pass of line 69 with its final state. -/
def functionsResult (c : String) : List String × PState :=
  translate_functions (identify_structs c) (initState c) c

/-- Everything `translate` (lines 17-72) appends to `cpp_code` before the
`main` section: includes, defines, namespace directive, math constants,
classes, globals, free functions, with the source's conditional blank lines. -/
def translateLinesPre (c : String) : List String :=
  let includes := identify_includes c
  let defines := identify_defines c
  let defineLines := translate_defines defines
  let classDefs := translate_structs_to_classes (identify_structs c)
    (identify_struct_functions c (identify_structs c))
  let globalVars := translate_global_variables
    (if is_simple_program c then [] else identify_global_variables c)
  translate_includes includes (needs_iomanip c) ++ [""]
  ++ (if defineLines ≠ [] then defineLines ++ [""] else [])
  ++ ["// Using standard namespace", "using namespace std;"]
  ++ (if includes.contains "math.h" && !(defines.map Prod.fst).contains "PI" then
        ["", "// Common math constants",
         "const double PI = 3.14159265358979323846;",
         "const double E = 2.71828182845904523536;"]
      else [])
  ++ [""]
  ++ (if classDefs ≠ [] then classDefs ++ [""] else [])
  ++ (if globalVars ≠ [] then globalVars ++ [""] else [])
  ++ (functionsResult c).1

/-- All output lines of `translate` (lines 17-78): the pre-`main` sections
followed by the `main` section, which sees the state left by the
free-function pass. -/
def translateLines (c : String) : List String :=
  translateLinesPre c ++ (translate_main_function (functionsResult c).2 c).1

/-- `translate` (lines 17-78): `'\n'.join(cpp_code)`. -/
def translate (c : String) : String := String.intercalate "\n" (translateLines c)

/-! ### Concrete example inputs used by the verification theorems -/

/-- An input with no `main` function at all. -/
def srcNoMain : String := "int x = 5;"

/-- A body containing the formatted print of the specification example. -/
def bodyPrintfValue : List Char := cl "    printf(\"Value: %d\\n\", x);"

/-- A body with the array allocation spelled as in the specification,
`(int*) malloc(...)`, an indexing use, and a deallocation. -/
def bodyMallocSpecSpelling : List Char :=
  cl "    p = (int*) malloc(sizeof(int) * 10);\n    p[0] = 1;\n    free(p);"

/-- The same body with the allocation spelled `(int *)malloc(...)`, the
spelling the source's `replace` pattern is built with. -/
def bodyMallocCanonArray : List Char :=
  cl "    p = (int *)malloc(sizeof(int) * 10);\n    p[0] = 1;\n    free(p);"

/-- A scalar allocation in the canonical spelling, with a deallocation. -/
def bodyMallocCanonSingle : List Char :=
  cl "    p = (int *)malloc(sizeof(int));\n    free(p);"

/-- An array allocation in the canonical spelling with no indexing use. -/
def bodyMallocCanonArrayNoIndex : List Char :=
  cl "    p = (int *)malloc(sizeof(int) * 10);\n    free(p);"

/-- A struct with one field and one associated function that accesses the
self parameter through the pointer syntax `n->data`. -/
def srcNodeStruct : String :=
  "struct Node \x7b\n    int data;\n\x7d;\n\nvoid setData(struct Node *n, int d) \x7b\n    n->data = d;\n\x7d\n\nint main() \x7b\n    return 0;\n\x7d"

/-- A struct with two integer fields and one associated function taking the
struct pointer plus one integer parameter. -/
def srcPointStruct : String :=
  "struct Point \x7b\n    int x;\n    int y;\n\x7d;\n\nvoid setValue(struct Point *p, int v) \x7b\n    p->x = v;\n\x7d\n\nint main() \x7b\n    return 0;\n\x7d"

/-- An input whose two distinct headers map to the same output header:
`string.h` is in the table with image `string`, and `string` passes through. -/
def srcDupIncludes : String :=
  "#include <string.h>\n#include <string>\nint main() \x7b\n    return 0;\n\x7d"

/-- An input with a canonical swap function and a `main`. -/
def srcSwap : String :=
  "void swap(int *a, int *b) \x7b\n    int temp = *a;\n    *a = *b;\n    *b = temp;\n\x7d\n\nint main() \x7b\n    return 0;\n\x7d"

/-- An input including the math header and defining no `PI` macro. -/
def srcMathInclude : String :=
  "#include <math.h>\nint main() \x7b\n    return 0;\n\x7d"

/-- An input whose `main` has the old-style `(void)` parameter list. -/
def srcMainVoid : String :=
  "int main(void) \x7b\n    return 0;\n\x7d"

/-- The three specification `#define` examples in one input. -/
def srcDefines : String := "#define N 5\n#define PI 3.14\n#define MSG \"hi\""

/-! ### Helper lemmas -/

theorem foldl_append_eq_map (f : α → β) (init : List β) (l : List α) :
    l.foldl (fun acc x => acc ++ [f x]) init = init ++ l.map f := by
  induction l generalizing init with
  | nil => simp
  | cons x xs ih => simp [ih]

theorem map_fst_dictUpd_mem [DecidableEq κ] (d : List (κ × ν)) (k : κ) (v : ν)
    (h : k ∈ d.map Prod.fst) : (dictUpd d k v).map Prod.fst = d.map Prod.fst := by
  simp only [dictUpd, if_pos h, List.map_map]
  apply List.map_congr_left
  intro p _
  by_cases hp : p.1 = k <;> simp [hp]

theorem map_fst_dictUpd_not_mem [DecidableEq κ] (d : List (κ × ν)) (k : κ) (v : ν)
    (h : k ∉ d.map Prod.fst) : (dictUpd d k v).map Prod.fst = d.map Prod.fst ++ [k] := by
  simp [dictUpd, h]

theorem map_fst_foldl_dictUpd [DecidableEq κ] (ms : List (κ × ν)) (d : List (κ × ν)) :
    ((ms.foldl (fun acc p => dictUpd acc p.1 p.2) d).map Prod.fst)
      = d.map Prod.fst ++ dedupFirstAux (d.map Prod.fst) (ms.map Prod.fst) := by
  induction ms generalizing d with
  | nil => simp [dedupFirstAux]
  | cons p ms ih =>
    by_cases h : p.1 ∈ d.map Prod.fst
    · simp only [List.foldl_cons, List.map_cons, dedupFirstAux, if_pos h]
      rw [ih, map_fst_dictUpd_mem d p.1 p.2 h]
    · simp only [List.foldl_cons, List.map_cons, dedupFirstAux, if_neg h]
      rw [ih, map_fst_dictUpd_not_mem d p.1 p.2 h]
      simp [List.append_assoc]

theorem mem_of_lookup_eq_some [DecidableEq κ] {l : List (κ × ν)} {k : κ} {v : ν}
    (h : l.lookup k = some v) : (k, v) ∈ l := by
  induction l with
  | nil => simp [List.lookup] at h
  | cons p t ih =>
    rcases p with ⟨a, b⟩
    by_cases hk : k = a
    · subst hk
      simp [List.lookup] at h
      simp [h]
    · have hb : (k == a) = false := beq_eq_false_iff_ne.mpr hk
      simp only [List.lookup, hb] at h
      exact List.mem_cons_of_mem _ (ih h)

theorem includeLine_inj {a b : String} (h : includeLine a = includeLine b) : a = b := by
  apply String.ext
  have hd := congrArg String.data h
  simp only [includeLine, String.data_append, List.append_assoc] at hd
  exact List.append_left_injective _ (List.append_cancel_left hd)

theorem count_filterMap_eq_countP [DecidableEq β] (f : α → Option β) (b : β) (l : List α) :
    (l.filterMap f).count b = l.countP (fun a => decide (f a = some b)) := by
  induction l with
  | nil => simp
  | cons x xs ih =>
    cases hx : f x with
    | none => simp [List.filterMap_cons, hx, List.countP_cons, ih]
    | some y =>
      by_cases hy : y = b
      · subst hy
        simp [List.filterMap_cons, hx, List.countP_cons, ih, List.count_cons]
      · simp [List.filterMap_cons, hx, List.countP_cons, ih, List.count_cons, hy]

theorem countP_eq_one_of_unique {l : List α} {p : α → Bool} {h : α}
    (hn : l.Nodup) (hmem : h ∈ l) (hp : p h = true)
    (huniq : ∀ x ∈ l, p x = true → x = h) : l.countP p = 1 := by
  induction l with
  | nil => simp at hmem
  | cons x xs ih =>
    obtain ⟨hx, hxs⟩ := List.nodup_cons.mp hn
    rw [List.countP_cons]
    rcases List.mem_cons.mp hmem with hxh | hin
    · subst hxh
      rw [if_pos hp]
      have hz : xs.countP p = 0 := by
        apply List.countP_eq_zero.mpr
        intro y hy hpy
        exact hx ((huniq y (List.mem_cons_of_mem _ hy) hpy) ▸ hy)
      omega
    · have hxp : p x = false := by
        by_contra hc
        have : x = h := huniq x (List.mem_cons_self x xs) (by revert hc; cases p x <;> simp)
        exact hx (this ▸ hin)
      rw [hxp]
      simp only [Bool.false_eq_true, if_false, Nat.add_zero]
      exact ih hxs hin (fun y hy hpy => huniq y (List.mem_cons_of_mem _ hy) hpy)

theorem header_values_distinct : (c_to_cpp_headers.map Prod.snd).Nodup := by decide

theorem header_values_not_fixed :
    ∀ v ∈ c_to_cpp_headers.map Prod.snd,
      v ≠ "iomanip" ∧ v ≠ "functional" ∧ v ≠ "algorithm" ∧
      includeLine v ≠ "// C++ style includes" := by decide

theorem header_keys_not_functional : ∀ p ∈ c_to_cpp_headers, p.1 ≠ "functional" := by decide

/-! ### Claim theorems -/

/-- Claim C1, counterexample: the claim says that when no `main` signature can
be located, `translate` fails with `ExtractionFailure` and produces no output
at all.  On `srcNoMain` (`int x = 5;`) the `main` extraction fails, yet
`translate` returns a non-empty partial result consisting of all other
sections. -/
theorem c1_no_output_counterexample :
    extract_main_body srcNoMain = none ∧
    translate srcNoMain =
      "// C++ style includes\n#include <algorithm>\n\n// Using standard namespace\nusing namespace std;\n\n// Global variables\nint x;\n" ∧
    translate srcNoMain ≠ "" := by decide

/-- Claim C1, amended: when the `main` signature cannot be located or its
braces cannot be balanced (`extract_main_body` returns `none`), `translate`
does not fail; it returns exactly the non-`main` sections — a partial result
that always contains the namespace directive line. -/
theorem c1_missing_main_partial_output (c : String) (h : extract_main_body c = none) :
    translate c = String.intercalate "\n" (translateLinesPre c) ∧
    "using namespace std;" ∈ translateLinesPre c := by
  constructor
  · simp [translate, translateLines, translate_main_function, h]
  · simp [translateLinesPre, List.mem_append]

/-- Claim C1, witness for the amended theorem at `srcNoMain`. -/
theorem c1_missing_main_partial_output_witness :
    extract_main_body srcNoMain = none ∧
    (translate srcNoMain = String.intercalate "\n" (translateLinesPre srcNoMain) ∧
     "using namespace std;" ∈ translateLinesPre srcNoMain) :=
  ⟨by decide, c1_missing_main_partial_output srcNoMain (by decide)⟩

/-- Claim C2: for `printf("Value: %d\n", x);` the claim says the trailing
newline escape becomes the terminating line-end token and does not also
appear as literal text.  Evaluating the formatted-output pass shows the
emitted chain inserts the literal `"Value: "`, then `x` once, then the
literal `"\n"`, then `endl`: the newline escape is duplicated as literal
text, matching the stripping behaviour of the no-argument branch only in
intent. -/
theorem c2_printf_trailing_newline_duplicated :
    (process_function_body ⟨[], []⟩ bodyPrintfValue).1
      = cl "    cout << \"Value: \" << x << \"\\n\" << endl;" ∧
    containsSub (cl "\"\\n\" << endl;") (process_function_body ⟨[], []⟩ bodyPrintfValue).1
      = true := by decide

/-- Claim C3: the claim says a body containing `p = (int*) malloc(sizeof(int)
* 10); ... free(p);` is rewritten to `p = new int[10];` and `delete[] p;`.
Evaluating the allocation pass shows: (1) with the claim's spelling the
allocation statement is left unchanged and the deallocation becomes the
scalar `delete p;`, because the `replace` at line 335 rebuilds the pattern in
the fixed spelling `(int *)malloc(...)`; (2) with that canonical spelling and
an indexing use the claimed array forms are produced; (3) the scalar case
works in the canonical spelling; (4) even in the canonical spelling, an
array allocation without an indexing use is paired with a scalar
`delete p;`. -/
theorem c3_malloc_rewrite_spelling :
    (process_function_body ⟨[], []⟩ bodyMallocSpecSpelling).1
      = cl "    p = (int*) malloc(sizeof(int) * 10);\n    p[0] = 1;\n    delete p;" ∧
    (process_function_body ⟨[], []⟩ bodyMallocCanonArray).1
      = cl "    p = new int[10];\n    p[0] = 1;\n    delete[] p;" ∧
    (process_function_body ⟨[], []⟩ bodyMallocCanonSingle).1
      = cl "    p = new int;\n    delete p;" ∧
    (process_function_body ⟨[], []⟩ bodyMallocCanonArrayNoIndex).1
      = cl "    p = new int[10];\n    delete p;" := by decide

/-- Claim C4: the claim says each `p->field` occurrence of the method's self
parameter is rewritten to an implicit-receiver access.  Evaluating the
struct-to-class transformer on `srcNodeStruct` shows the out-of-line body
`n->data = d;` is emitted verbatim — the source replaces the text `n>`
(line 270), which never occurs in `n->data` — and no `this` receiver appears
anywhere in the emitted lines. -/
theorem c4_self_pointer_access_unrewritten :
    translate_structs_to_classes (identify_structs srcNodeStruct)
      (identify_struct_functions srcNodeStruct (identify_structs srcNodeStruct)) =
      ["// Class converted from struct Node", "class Node \x7b", "public:",
       "    int data;", "\n    // Constructor", "    Node() \x7b\x7d",
       "\n    // Methods", "    void setData(, int d);", "\x7d;",
       "\n// Method implementations for class Node",
       "void Node::setData(, int d) \x7b", "\n    n->data = d;\n", "\x7d"] ∧
    containsSub (cl "this")
      (cl (String.intercalate "\n"
        (translate_structs_to_classes (identify_structs srcNodeStruct)
          (identify_struct_functions srcNodeStruct (identify_structs srcNodeStruct)))))
      = false := by decide

/-- Claim C5: the claim says the emitted class has both fields in order, a
zero-argument constructor, and one public method declaration whose parameter
list consists of only the integer parameter.  Evaluating the transformer on
`srcPointStruct` shows both fields, the constructor, and exactly one method
declaration — but its parameter list is `, int v`: the self parameter is
dropped while its separating comma is kept, producing
`void setValue(, int v);`. -/
theorem c5_method_declaration_keeps_comma :
    translate_structs_to_classes (identify_structs srcPointStruct)
      (identify_struct_functions srcPointStruct (identify_structs srcPointStruct)) =
      ["// Class converted from struct Point", "class Point \x7b", "public:",
       "    int x;", "    int y;", "\n    // Constructor", "    Point() \x7b\x7d",
       "\n    // Methods", "    void setValue(, int v);", "\x7d;",
       "\n// Method implementations for class Point",
       "void Point::setValue(, int v) \x7b", "\n    p->x = v;\n", "\x7d"] := by decide

/-- Claim C6, counterexample: the claim says header lines are deduplicated by
mapped name and each table header appears exactly once under its mapped
name.  On `srcDupIncludes`, which includes both `string.h` (mapped to
`string`) and `string` (absent from the table, passed through), the line
`#include <string>` appears twice in the output: deduplication happens on
the original names only. -/
theorem c6_dedup_by_mapped_name_counterexample :
    (translateLines srcDupIncludes).count "#include <string>" = 2 := by decide

/-- Claim C6, amended: headers are deduplicated by original name.  For any
deduplicated include set, a header from the mapping table whose mapped name
does not itself occur as a distinct input header yields exactly one output
line under its mapped name (repetitions in the raw input are removed by
`identify_includes` before this point). -/
theorem c6_mapped_header_emitted_once (l : List String) (h m : String) (flag : Bool)
    (hnd : l.Nodup) (hm : headerMap h = some m) (hin : h ∈ l) (hout : m ∉ l) :
    (translate_includes l flag).count (includeLine m) = 1 := by
  have hmem : (h, m) ∈ c_to_cpp_headers := mem_of_lookup_eq_some hm
  have hval : m ∈ c_to_cpp_headers.map Prod.snd := List.mem_map.mpr ⟨(h, m), hmem, rfl⟩
  obtain ⟨hm1, hm2, hm3, hm4⟩ := header_values_not_fixed m hval
  have hio : (includeLine "iomanip" == includeLine m) = false :=
    beq_eq_false_iff_ne.mpr (fun e => hm1 (includeLine_inj e).symm)
  have hfu : (includeLine "functional" == includeLine m) = false :=
    beq_eq_false_iff_ne.mpr (fun e => hm2 (includeLine_inj e).symm)
  have hal : (includeLine "algorithm" == includeLine m) = false :=
    beq_eq_false_iff_ne.mpr (fun e => hm3 (includeLine_inj e).symm)
  have hcm : ("// C++ style includes" == includeLine m) = false :=
    beq_eq_false_iff_ne.mpr (Ne.symm hm4)
  have hfix1 : List.count (includeLine m) (if flag = true then [includeLine "iomanip"] else []) = 0 := by
    split <;> simp [List.count_cons, hio]
  have hfix2 : List.count (includeLine m)
      (if l.contains "functional" = true then [includeLine "functional"] else []) = 0 := by
    split <;> simp [List.count_cons, hfu]
  rw [translate_includes, List.count_append, List.count_append, List.count_append,
    List.count_append]
  rw [hfix1, hfix2]
  simp only [List.count_cons, List.count_nil, hcm, hal, Bool.false_eq_true, if_false,
    Nat.add_zero, Nat.zero_add]
  rw [count_filterMap_eq_countP]
  have hnf : h ≠ "functional" := header_keys_not_functional (h, m) hmem
  apply countP_eq_one_of_unique hnd hin
  · simp [hnf, hm]
  · intro x hx hpx
    by_cases hxf : x = "functional"
    · simp [hxf] at hpx
    · cases hlk : headerMap x with
      | some mx =>
        simp only [hxf, if_false, hlk, Option.some.injEq, decide_eq_true_eq] at hpx
        have hmx : mx = m := includeLine_inj hpx
        subst hmx
        have hmemx : (x, mx) ∈ c_to_cpp_headers := mem_of_lookup_eq_some hlk
        have := List.inj_on_of_nodup_map header_values_distinct hmemx hmem rfl
        exact congrArg Prod.fst this
      | none =>
        simp only [hxf, if_false, hlk, Option.some.injEq, decide_eq_true_eq] at hpx
        exact absurd ((includeLine_inj hpx) ▸ hx) hout

/-- Claim C6, witness for the amended theorem: the single header `stdio.h`
yields exactly one `#include <iostream>` line. -/
theorem c6_mapped_header_emitted_once_witness :
    (["stdio.h"] : List String).Nodup ∧ headerMap "stdio.h" = some "iostream" ∧
    "stdio.h" ∈ (["stdio.h"] : List String) ∧ "iostream" ∉ (["stdio.h"] : List String) ∧
    (translate_includes ["stdio.h"] false).count (includeLine "iostream") = 1 :=
  ⟨by decide, by decide, by decide, by decide,
   c6_mapped_header_emitted_once ["stdio.h"] "stdio.h" "iostream" false
     (by decide) (by decide) (by decide) (by decide)⟩

/-- Claim C7: the constant emitter classifies each macro by value shape
(quoted literal, decimal point, all digits, otherwise `auto`) and emits in
first-appearance order.  Conjuncts: (1) the emitted lines are exactly the
header comment followed by one classified line per dict entry in order;
(2) the macro dict lists names in first-appearance order of the matches;
(3) the three specification examples evaluate end-to-end to the claimed
integer, floating and string constants. -/
theorem c7_define_classification_and_order :
    (∀ ds : List (String × String),
      translate_defines ds =
        if ds = [] then []
        else "// Constants (converted from #define)" :: ds.map defLine) ∧
    (∀ ms : List (String × String),
      (dictOfList ms).map Prod.fst = dedupFirst (ms.map Prod.fst)) ∧
    translate_defines (identify_defines srcDefines) =
      ["// Constants (converted from #define)",
       "const int N = 5;", "const double PI = 3.14;", "const string MSG = \"hi\";"] := by
  refine ⟨fun ds => ?_, fun ms => ?_, by decide⟩
  · by_cases h : ds = []
    · simp [translate_defines, h]
    · simp [translate_defines, h, foldl_append_eq_map]
  · have := map_fst_foldl_dictUpd ms []
    simpa [dictOfList, dedupFirst] using this

/-- Claim C8: the claim says a two-pointer-parameter swap function with the
canonical temporary-variable body is replaced by a generic utility delegating
to `std::swap`.  Evaluating the free-function pass on `srcSwap`, which
contains exactly that canonical function at top level, shows the definition
is emitted essentially verbatim and no `std::swap`-delegating template
appears: the idiom pass searches for a function *definition* inside the
function *body* text, where one never occurs. -/
theorem c8_toplevel_swap_left_unmodified :
    (translate_functions (identify_structs srcSwap) (initState srcSwap) srcSwap).1 =
      ["// C++ style function", "void swap(int *a, int *b) \x7b",
       "\n    int temp = *a;\n    *a = *b;\n    *b = temp;\n", "\x7d", ""] ∧
    containsSub (cl "std::swap")
      (cl (String.intercalate "\n"
        (translate_functions (identify_structs srcSwap) (initState srcSwap) srcSwap).1))
      = false ∧
    containsSub (cl "template")
      (cl (String.intercalate "\n"
        (translate_functions (identify_structs srcSwap) (initState srcSwap) srcSwap).1))
      = false := by decide

/-- Claim C9: whenever the input includes `math.h` and defines no macro named
`PI`, the output contains the two math-constant declarations (which the
specification never mentions). -/
theorem c9_math_constants_emitted (c : String)
    (h1 : "math.h" ∈ identify_includes c)
    (h2 : "PI" ∉ (identify_defines c).map Prod.fst) :
    "const double PI = 3.14159265358979323846;" ∈ translateLines c ∧
    "const double E = 2.71828182845904523536;" ∈ translateLines c := by
  have h2' : ∀ x, ("PI", x) ∉ identify_defines c := by
    intro x hx
    exact h2 (List.mem_map.mpr ⟨("PI", x), hx, rfl⟩)
  refine ⟨?_, ?_⟩ <;>
  · simp [translateLines, translateLinesPre, List.mem_append]
    exact Or.inr (Or.inr (Or.inl ⟨h1, h2'⟩))

/-- Claim C9, witness at `srcMathInclude`. -/
theorem c9_math_constants_emitted_witness :
    "math.h" ∈ identify_includes srcMathInclude ∧
    "PI" ∉ (identify_defines srcMathInclude).map Prod.fst ∧
    ("const double PI = 3.14159265358979323846;" ∈ translateLines srcMathInclude ∧
     "const double E = 2.71828182845904523536;" ∈ translateLines srcMathInclude) :=
  ⟨by decide, by decide,
   c9_math_constants_emitted srcMathInclude (by decide) (by decide)⟩

/-- Claim C10: whenever a `main` body is successfully extracted, the emitted
`main` section consists of the comment, the fixed modern signature
`int main(int argc, char* argv[])` — independently of the original
parameter list — the processed body, and the closing brace. -/
theorem c10_main_signature_fixed (c : String) (st : PState)
    (h : extract_main_body c ≠ none) :
    ∃ b, (translate_main_function st c).1 =
      ["// Main function", "int main(int argc, char* argv[]) \x7b", b, "\x7d"] := by
  match hx : extract_main_body c with
  | none => exact absurd hx h
  | some bdy =>
    refine ⟨(⟨(process_function_body st bdy.data).1⟩ : String), ?_⟩
    simp [translate_main_function, hx]

/-- Claim C10, witness at `srcMainVoid`, whose original signature is
`int main(void)`. -/
theorem c10_main_signature_fixed_witness :
    extract_main_body srcMainVoid ≠ none ∧
    ∃ b, (translate_main_function ⟨[], []⟩ srcMainVoid).1 =
      ["// Main function", "int main(int argc, char* argv[]) \x7b", b, "\x7d"] :=
  ⟨by decide, c10_main_signature_fixed srcMainVoid ⟨[], []⟩ (by decide)⟩

end CCpp
